import Mathlib

/-!
Verification development for the Shopify bulk price updater (app.py).

The file gives a shallow embedding of the parts of app.py that the
checked properties speak about: the worker price computation, the
paginated GraphQL fetch loop, the gql error handling, the staged
upload request, the bulk-operation poll loop, and the SSE log hub
(bounded ring buffer plus one shared live queue), followed by
theorems about those definitions.
-/

namespace App

/-! ## Python dictionaries as ordered association lists -/

/-- A Python dict modelled as an ordered association list: assignment to an
existing key updates it in place, a new key is appended at the end. -/
def dictInsert {α : Type} : List (String × α) → String → α → List (String × α)
  | [], k, v => [(k, v)]
  | (k₀, v₀) :: rest, k, v =>
    if k₀ = k then (k, v) :: rest else (k₀, v₀) :: dictInsert rest k v

/-- Python dict lookup, returning none for an absent key. -/
def dictGet {α : Type} : List (String × α) → String → Option α
  | [], _ => none
  | (k₀, v₀) :: rest, k => if k₀ = k then some v₀ else dictGet rest k

/-! ## Numbers: float literals and Python rounding -/

/-- Python str.strip() with no argument: remove whitespace from both ends. -/
def pyStrip (s : String) : String :=
  ⟨((s.toList.dropWhile (fun c => c.isWhitespace)).reverse.dropWhile
      (fun c => c.isWhitespace)).reverse⟩

/-- Decimal value of a digit character. -/
def charDigitVal (c : Char) : ℕ := c.toNat - 48

/-- Value of a digit string read in base 10. -/
def natOfDigits (cs : List Char) : ℕ :=
  cs.foldl (fun a c => 10 * a + charDigitVal c) 0

/-- Models the Python builtin float() on plain decimal string literals:
surrounding whitespace stripped, optional sign, integer digits, optional
fractional part. Returns none where float() raises ValueError. Exponent
and special forms, which never occur in the data this repository stores,
are not modelled. -/
def parseFloat (s : String) : Option ℚ :=
  let cs := (pyStrip s).toList
  let signed : ℚ × List Char :=
    match cs with
    | '-' :: rest => (-1, rest)
    | '+' :: rest => (1, rest)
    | _ => (1, cs)
  let sign := signed.1
  let body := signed.2
  let intPart := body.takeWhile (fun c => c.isDigit)
  let rest := body.dropWhile (fun c => c.isDigit)
  match rest with
  | [] => if intPart.isEmpty then none else some (sign * (natOfDigits intPart : ℚ))
  | '.' :: frac =>
    if frac.all (fun c => c.isDigit) && !(intPart.isEmpty && frac.isEmpty) then
      some (sign * ((natOfDigits intPart : ℚ)
        + (natOfDigits frac : ℚ) / (10 : ℚ) ^ frac.length))
    else none
  | _ => none

/-- Round half to even, as the Python builtin round does at integer
precision. -/
def roundHalfEven (q : ℚ) : ℤ :=
  if q - (⌊q⌋ : ℚ) < 1 / 2 then ⌊q⌋
  else if 1 / 2 < q - (⌊q⌋ : ℚ) then ⌊q⌋ + 1
  else if ⌊q⌋ % 2 = 0 then ⌊q⌋ else ⌊q⌋ + 1

/-- round(x, 2): Python rounding to two decimal places. -/
def round2 (q : ℚ) : ℚ := (roundHalfEven (q * 100) : ℚ) / 100

/-! ## Catalog data model -/

structure Metafield where
  key : String
  value : String
deriving DecidableEq, Repr

structure Variant where
  id : String
  title : String
deriving DecidableEq, Repr

structure Product where
  id : String
  tags : List String
  metafields : List Metafield
  variants : List Variant
deriving DecidableEq, Repr

/-- The surcharge table of variant_prices.json: category name to
variant-title to surcharge. -/
def PriceTable := List (String × List (String × ℚ))

/-! ## The worker price computation (worker, app.py lines 205-242) -/

/-- Category assignment of worker: the bracelet tag is tested first, then
collier; a product with neither is skipped. -/
def categoryOf (tags : List String) : Option String :=
  if "bracelet" ∈ tags then some "bracelet"
  else if "collier" ∈ tags then some "collier"
  else none

/-- Outcome of the base-price scan of worker: the first metafield whose key
is base_price is converted with float(); missing when no such metafield
exists, malformed when float() raises on its value. -/
inductive BaseResult
  | missing
  | malformed
  | found (q : ℚ)
deriving DecidableEq, Repr

/-- The metafield loop of worker (app.py lines 223-227). -/
def findBase : List Metafield → BaseResult
  | [] => .missing
  | mf :: rest =>
    if mf.key = "base_price" then
      match parseFloat mf.value with
      | some q => .found q
      | none => .malformed
    else findBase rest

/-- prices.get(cat, empty).get(title, 0): surcharge lookup defaulting to
zero when the category or the title is absent (app.py line 234). -/
def surchargeLookup (prices : PriceTable) (cat title : String) : ℚ :=
  match dictGet prices cat with
  | none => 0
  | some sub =>
    match dictGet sub title with
    | none => 0
    | some s => s

/-- Target price of one variant (app.py lines 234-235): the title is
whitespace-stripped before the surcharge lookup. -/
def targetPrice (prices : PriceTable) (cat : String) (base : ℚ) (v : Variant) : ℚ :=
  round2 (base + surchargeLookup prices cat (pyStrip v.title))

/-- The variant loop of worker (app.py lines 232-235): successive dict
assignments into variant_map. -/
def addVariants (prices : PriceTable) (cat : String) (base : ℚ)
    (m : List (String × ℚ)) (vs : List Variant) : List (String × ℚ) :=
  vs.foldl (fun acc v => dictInsert acc v.id (targetPrice prices cat base v)) m

/-- The product loop of worker (app.py lines 212-235). A product without a
category tag or without a base_price metafield is skipped and the loop
continues; a malformed base_price value makes float() raise, which aborts
the whole loop (the error value), caught only by the top-level handler of
worker that logs a crash event. -/
def processRun (prices : PriceTable) :
    List Product → List (String × ℚ) → Except Unit (List (String × ℚ))
  | [], m => .ok m
  | p :: rest, m =>
    match categoryOf p.tags with
    | none => processRun prices rest m
    | some cat =>
      match findBase p.metafields with
      | .missing => processRun prices rest m
      | .malformed => .error ()
      | .found base => processRun prices rest (addVariants prices cat base m p.variants)

/-! ## Paginated fetch (fetch_products_graphql, app.py lines 87-123) -/

/-- One page of the products connection: the nodes of the edges, the
pageInfo hasNextPage flag and the pageInfo endCursor. -/
structure Page where
  items : List Product
  hasNextPage : Bool
  endCursor : String
deriving Repr

/-- Accumulation loop of fetch_products_graphql over the successive pages
the server returns for the successive cursors (the list position stands
for the cursor chain): each iteration appends the page items, then stops
unless hasNextPage is set. -/
def fetchPages : List Page → List Product
  | [] => []
  | pg :: rest => pg.items ++ (if pg.hasNextPage then fetchPages rest else [])

/-- Number of gql page requests the loop makes over the given pages. -/
def requestCount : List Page → ℕ
  | [] => 0
  | pg :: rest => 1 + (if pg.hasNextPage then requestCount rest else 0)

/-! ## gql error handling (gql, app.py lines 72-83) -/

/-- A GraphQL HTTP response after redirect resolution: final status code,
the errors list of the JSON body (empty when absent or falsy) and the
data payload. -/
structure GqlResponse (α : Type) where
  status : ℕ
  errors : List String
  payload : α

inductive GqlError
  | transport (status : ℕ)
  | protocol (errs : List String)
deriving DecidableEq, Repr

/-- gql: r.raise_for_status() raises HTTPError exactly for a status in
[400, 600); then a truthy (non-empty) errors list raises RuntimeError
carrying it; otherwise the data payload is returned. -/
def gqlResult {α : Type} (r : GqlResponse α) : Except GqlError α :=
  if 400 ≤ r.status ∧ r.status < 600 then .error (.transport r.status)
  else if r.errors ≠ [] then .error (.protocol r.errors)
  else .ok r.payload

/-! ## Staged upload request (staged_upload, app.py lines 140-174) -/

/-- A staged upload target returned by stagedUploadsCreate. -/
structure StagedTarget where
  url : String
  resourceUrl : String
  parameters : List (String × String)
deriving DecidableEq, Repr

/-- The requests.put call of staged_upload, as issued. -/
structure UploadRequest where
  url : String
  params : List (String × String)
  headers : List (String × String)
deriving DecidableEq, Repr

/-- The upload step of staged_upload (app.py lines 166-173): params is the
dict comprehension over the signed target parameters, and the headers
argument is the hard-coded Content-Type text/jsonl entry. -/
def buildUploadRequest (tgt : StagedTarget) : UploadRequest :=
  { url := tgt.url
  , params := tgt.parameters.foldl (fun acc pr => dictInsert acc pr.1 pr.2) []
  , headers := [("Content-Type", "text/jsonl")] }

/-! ## Bulk operation polling (bulk_update, app.py lines 191-201) -/

structure BulkStat where
  status : String
  objectCount : ℕ
deriving DecidableEq, Repr

/-- Terminal statuses of the poll loop. -/
def isTerminal (s : String) : Bool :=
  s = "COMPLETED" || s = "FAILED" || s = "CANCELED"

/-- The per-poll progress line (app.py line 193). -/
def statusLine (opId : String) (st : BulkStat) : String :=
  "Bulk " ++ opId ++ " → " ++ st.status

/-- The line logged after the loop (app.py lines 198-201); on failure the
code formats the whole status payload, summarised here by its status. -/
def finalLine (st : BulkStat) : String :=
  if st.status = "COMPLETED" then
    "✅ Completed — " ++ toString st.objectCount ++ " variants."
  else
    "💥 Bulk failed: " ++ st.status

/-- The poll loop consuming the successive currentBulkOperation statuses:
one progress line per poll, stopping at the first terminal status, which
is also returned. none when the sequence is exhausted before a terminal
status (the real loop would keep polling). -/
def pollLoop (opId : String) : List BulkStat → Option (List String × BulkStat)
  | [] => none
  | st :: rest =>
    if isTerminal st.status then some ([statusLine opId st], st)
    else
      match pollLoop opId rest with
      | none => none
      | some (evs, fin) => some (statusLine opId st :: evs, fin)

/-- All progress lines of bulk_update from the first poll on: the per-poll
lines followed by the completion or failure line. -/
def bulkPollEvents (opId : String) (stats : List BulkStat) : Option (List String) :=
  match pollLoop opId stats with
  | none => none
  | some (evs, fin) => some (evs ++ [finalLine fin])

/-! ## The log hub (app.py lines 52-60 and 250-257) -/

/-- Capacity of the log_buffer deque (maxlen=200). -/
def LOG_CAP : ℕ := 200

/-- Appending to a deque with maxlen cap: the oldest entries are dropped
from the left so that at most cap remain. -/
def ringPush (cap : ℕ) (buf : List String) (x : String) : List String :=
  (buf ++ [x]).drop (buf.length + 1 - cap)

/-- The module state feeding /stream: the bounded log_buffer deque and the
single shared SimpleQueue of live lines, front at the head. -/
structure Hub where
  buffer : List String
  q : List String
deriving DecidableEq, Repr

/-- One call of the log helper with an already-formatted line: append to
the ring buffer and put the same line on the shared live queue. -/
def Hub.publish (h : Hub) (line : String) : Hub :=
  { buffer := ringPush LOG_CAP h.buffer line, q := h.q ++ [line] }

/-- The timestamped line the log helper formats. -/
def logLine (ts msg : String) : String := "[" ++ ts ++ "] " ++ msg

def hub0 : Hub := ⟨[], []⟩

/-- Hub state after the given lines have been published, in order, with no
subscriber consuming the queue. -/
def hubAfter (lines : List String) : Hub := lines.foldl Hub.publish hub0

/-- The backlog replay of the stream generator: list(log_buffer), yielded
in order before any live line. -/
def streamBacklog (h : Hub) : List String := h.buffer

/-- The finite prefix of the stream generator output for one subscriber
when post lines are published after it connects and nothing else consumes
the shared queue: the backlog replay, then the queue contents, then the
later lines, after which the generator blocks. -/
def streamOutput (h : Hub) (post : List String) : List String :=
  h.buffer ++ (h.q ++ post)

/-! ## Two subscribers sharing the live queue -/

/-- One subscriber of /stream: the backlog it replayed when it connected
and the live lines it has taken from the shared queue. -/
structure SubState where
  backlog : List String
  live : List String
deriving DecidableEq, Repr

/-- The hub together with up to two stream subscribers. -/
structure SysState where
  hub : Hub
  s1 : Option SubState
  s2 : Option SubState
deriving DecidableEq, Repr

/-- Interleaved actions: a publish, a subscriber connecting (replaying the
backlog), or a subscriber generator running one _log_q.get() step. -/
inductive Act
  | pub (msg : String)
  | subscribe1
  | subscribe2
  | deliver1
  | deliver2
deriving DecidableEq, Repr

/-- One get() step of a subscriber generator against the shared queue: it
removes the front line, which no other subscriber will ever see; with an
empty queue the get() blocks and nothing happens. -/
def deliverTo (hub : Hub) (s : Option SubState) : Hub × Option SubState :=
  match s, hub.q with
  | some sub, x :: rest =>
    ({ hub with q := rest }, some { sub with live := sub.live ++ [x] })
  | _, _ => (hub, s)

def step (st : SysState) : Act → SysState
  | .pub m => { st with hub := st.hub.publish m }
  | .subscribe1 =>
    match st.s1 with
    | none => { st with s1 := some ⟨st.hub.buffer, []⟩ }
    | some _ => st
  | .subscribe2 =>
    match st.s2 with
    | none => { st with s2 := some ⟨st.hub.buffer, []⟩ }
    | some _ => st
  | .deliver1 =>
    let hs := deliverTo st.hub st.s1
    { st with hub := hs.1, s1 := hs.2 }
  | .deliver2 =>
    let hs := deliverTo st.hub st.s2
    { st with hub := hs.1, s2 := hs.2 }

def run (st : SysState) (acts : List Act) : SysState := acts.foldl step st

def sysInit : SysState := ⟨hub0, none, none⟩

/-- Number of live lines a subscriber has received. -/
def liveLen : Option SubState → ℕ
  | none => 0
  | some s => s.live.length

/-- Number of publish actions in a schedule. -/
def pubCount : List Act → ℕ
  | [] => 0
  | .pub _ :: rest => pubCount rest + 1
  | _ :: rest => pubCount rest

/-! ## Concrete data for the test scenarios -/

/-- The price table of Scenario A. -/
def scenarioPrices : PriceTable := [("bracelet", [("Small", 5 / 2)])]

/-- The product of Scenario A: tagged for update and as bracelet, base
price metafield "10", one variant titled Small. -/
def scenarioProduct : Product :=
  { id := "gid-product-1"
  , tags := ["CHAINE_UPDATE", "bracelet"]
  , metafields := [⟨"base_price", "10"⟩]
  , variants := [⟨"gid-variant-1", "Small"⟩] }

/-- A product whose base_price metafield value is not a float literal. -/
def badProduct : Product :=
  { id := "gid-product-2"
  , tags := ["CHAINE_UPDATE", "bracelet"]
  , metafields := [⟨"base_price", "abc"⟩]
  , variants := [⟨"gid-variant-2", "Small"⟩] }

/-- A product with no base_price metafield at all. -/
def noBaseProduct : Product :=
  { id := "gid-product-3"
  , tags := ["CHAINE_UPDATE", "collier"]
  , metafields := [⟨"other", "1"⟩]
  , variants := [⟨"gid-variant-3", "Large"⟩] }

def prodA : Product := ⟨"gid-p-a", ["CHAINE_UPDATE"], [], []⟩

def prodB : Product := ⟨"gid-p-b", ["CHAINE_UPDATE"], [], []⟩

/-- A first results page whose pageInfo still has a next page. -/
def pageA : Page := ⟨[prodA], true, "cursor-1"⟩

/-- A final results page: hasNextPage false. -/
def pageB : Page := ⟨[prodB], false, "cursor-2"⟩

/-- A signed staged-upload target with two prescribed parameters. -/
def sampleTarget : StagedTarget :=
  ⟨"https://upload.example/bucket", "https://resource.example/bulk",
    [("key", "tmp/bulk.jsonl"), ("policy", "xyz")]⟩

def runningStat : BulkStat := ⟨"RUNNING", 0⟩

def completedStat : BulkStat := ⟨"COMPLETED", 3⟩

/-- A schedule where two subscribers are connected, one line is published,
and subscriber 1 runs its get() step before subscriber 2 does. -/
def raceSchedule : List Act :=
  [.subscribe1, .subscribe2, .pub "e", .deliver1, .deliver2]

/-! ## Helper lemmas -/

theorem roundHalfEven_intCast (z : ℤ) : roundHalfEven ((z : ℤ) : ℚ) = z := by
  simp [roundHalfEven]

theorem round2_eq_of_mul (q : ℚ) (z : ℤ) (h : q * 100 = (z : ℚ)) :
    round2 q = (z : ℚ) / 100 := by
  rw [round2, h, roundHalfEven_intCast]

theorem dictGet_dictInsert_self {α : Type} (m : List (String × α)) (k : String) (v : α) :
    dictGet (dictInsert m k v) k = some v := by
  induction m with
  | nil => simp [dictInsert, dictGet]
  | cons kv rest ih =>
    obtain ⟨k₀, v₀⟩ := kv
    by_cases h : k₀ = k <;> simp [dictInsert, dictGet, h, ih]

theorem dictGet_dictInsert_ne {α : Type} (m : List (String × α)) {k k₁ : String}
    (v : α) (h : k₁ ≠ k) : dictGet (dictInsert m k v) k₁ = dictGet m k₁ := by
  induction m with
  | nil => simp [dictInsert, dictGet, h, Ne.symm h]
  | cons kv rest ih =>
    obtain ⟨k₀, v₀⟩ := kv
    by_cases h₀ : k₀ = k
    · subst h₀
      simp [dictInsert, dictGet, h, Ne.symm h]
    · by_cases h₁ : k₀ = k₁ <;> simp [dictInsert, dictGet, h₀, h₁, ih, h, Ne.symm h]

theorem addVariants_nil (prices : PriceTable) (cat : String) (base : ℚ)
    (m : List (String × ℚ)) : addVariants prices cat base m [] = m := rfl

theorem addVariants_cons (prices : PriceTable) (cat : String) (base : ℚ)
    (m : List (String × ℚ)) (w : Variant) (ws : List Variant) :
    addVariants prices cat base m (w :: ws)
      = addVariants prices cat base (dictInsert m w.id (targetPrice prices cat base w)) ws := rfl

theorem addVariants_get_of_not_mem (prices : PriceTable) (cat : String) (base : ℚ)
    (vs : List Variant) (m : List (String × ℚ)) (k : String)
    (h : k ∉ vs.map Variant.id) :
    dictGet (addVariants prices cat base m vs) k = dictGet m k := by
  induction vs generalizing m with
  | nil => rfl
  | cons w ws ih =>
    simp only [List.map_cons, List.mem_cons, not_or] at h
    rw [addVariants_cons, ih _ h.2, dictGet_dictInsert_ne _ _ h.1]

theorem addVariants_get_of_mem (prices : PriceTable) (cat : String) (base : ℚ)
    (vs : List Variant) (m : List (String × ℚ)) (v : Variant)
    (hnd : (vs.map Variant.id).Nodup) (hv : v ∈ vs) :
    dictGet (addVariants prices cat base m vs) v.id
      = some (targetPrice prices cat base v) := by
  induction vs generalizing m with
  | nil => cases hv
  | cons w ws ih =>
    simp only [List.map_cons, List.nodup_cons] at hnd
    rw [addVariants_cons]
    rcases List.mem_cons.mp hv with rfl | hv₁
    · rw [addVariants_get_of_not_mem _ _ _ _ _ _ hnd.1, dictGet_dictInsert_self]
    · exact ih _ hnd.2 hv₁

theorem dictInsert_fresh {α : Type} (m : List (String × α)) (k : String) (v : α)
    (h : k ∉ m.map Prod.fst) : dictInsert m k v = m ++ [(k, v)] := by
  induction m with
  | nil => rfl
  | cons kv rest ih =>
    obtain ⟨k₀, v₀⟩ := kv
    simp only [List.map_cons, List.mem_cons, not_or] at h
    have hne : k₀ ≠ k := fun e => h.1 e.symm
    simp [dictInsert, hne, ih h.2]

theorem foldl_dictInsert_eq_append {α : Type} :
    ∀ (l m : List (String × α)),
      (l.map Prod.fst).Nodup →
      (∀ k ∈ l.map Prod.fst, k ∉ m.map Prod.fst) →
      l.foldl (fun acc pr => dictInsert acc pr.1 pr.2) m = m ++ l := by
  intro l
  induction l with
  | nil => intro m _ _; simp
  | cons pr l ih =>
    intro m hnd hdisj
    simp only [List.map_cons, List.nodup_cons] at hnd
    rw [List.foldl_cons, dictInsert_fresh m pr.1 pr.2 (hdisj pr.1 (by simp)),
      ih (m ++ [pr]) hnd.2]
    · simp
    · intro k hk
      simp only [List.map_append, List.mem_append, not_or]
      refine ⟨hdisj k (by simp [hk]), ?_⟩
      simp only [List.map_cons, List.map_nil, List.mem_singleton]
      exact fun e => hnd.1 (e ▸ hk)

theorem drop_append_drop {α : Type} (A l : List α) (k j : ℕ) (hk : k ≤ A.length) :
    ((A.drop k) ++ l).drop j = (A ++ l).drop (k + j) := by
  have h0 : (A ++ l).drop k = A.drop k ++ l := by
    rw [List.drop_append_eq_append_drop, show k - A.length = 0 by omega, List.drop_zero]
  rw [← h0, List.drop_drop, Nat.add_comm]

theorem length_ringPush (cap : ℕ) (buf : List String) (x : String) :
    (ringPush cap buf x).length = min (buf.length + 1) cap := by
  simp [ringPush]
  omega

theorem foldl_ringPush (cap : ℕ) :
    ∀ (l buf : List String), buf.length ≤ cap →
      l.foldl (ringPush cap) buf = (buf ++ l).drop (buf.length + l.length - cap) := by
  intro l
  induction l with
  | nil =>
    intro buf h
    simp only [List.foldl_nil, List.append_nil, List.length_nil, Nat.add_zero]
    rw [show buf.length - cap = 0 by omega, List.drop_zero]
  | cons x l ih =>
    intro buf h
    have hlen : (ringPush cap buf x).length ≤ cap := by
      rw [length_ringPush]; omega
    rw [List.foldl_cons, ih _ hlen, length_ringPush]
    show ((buf ++ [x]).drop (buf.length + 1 - cap) ++ l).drop _ = _
    rw [drop_append_drop _ _ _ _ (by simp)]
    rw [show buf ++ x :: l = (buf ++ [x]) ++ l by simp]
    congr 1
    simp only [List.length_cons]
    omega

theorem foldl_publish_buffer :
    ∀ (lines : List String) (h : Hub),
      (lines.foldl Hub.publish h).buffer = lines.foldl (ringPush LOG_CAP) h.buffer := by
  intro lines
  induction lines with
  | nil => intro h; rfl
  | cons x l ih =>
    intro h
    rw [List.foldl_cons, List.foldl_cons, ih]
    simp [Hub.publish]

theorem foldl_publish_q :
    ∀ (lines : List String) (h : Hub),
      (lines.foldl Hub.publish h).q = h.q ++ lines := by
  intro lines
  induction lines with
  | nil => intro h; simp
  | cons x l ih =>
    intro h
    rw [List.foldl_cons, ih]
    simp [Hub.publish]

theorem pollLoop_spec (opId : String) :
    ∀ (pre : List BulkStat) (fin : BulkStat),
      (∀ st ∈ pre, isTerminal st.status = false) →
      isTerminal fin.status = true →
      pollLoop opId (pre ++ [fin]) = some ((pre ++ [fin]).map (statusLine opId), fin)
      ∧ ∀ extra, pollLoop opId (pre ++ fin :: extra) = pollLoop opId (pre ++ [fin]) := by
  intro pre
  induction pre with
  | nil =>
    intro fin hpre hfin
    constructor
    · simp [pollLoop, hfin]
    · intro extra
      simp [pollLoop, hfin]
  | cons st pre ih =>
    intro fin hpre hfin
    have hst : isTerminal st.status = false := hpre st (by simp)
    have ih' := ih fin (fun s hs => hpre s (by simp [hs])) hfin
    constructor
    · show pollLoop opId (st :: (pre ++ [fin])) = _
      simp only [pollLoop, hst, Bool.false_eq_true, if_false, ih'.1]
      simp
    · intro extra
      show pollLoop opId (st :: (pre ++ fin :: extra)) = pollLoop opId (st :: (pre ++ [fin]))
      simp only [pollLoop, hst, Bool.false_eq_true, if_false, ih'.2 extra]

theorem run_delivery_invariant (acts : List Act) :
    ∀ st : SysState,
      liveLen (run st acts).s1 + liveLen (run st acts).s2 + (run st acts).hub.q.length
        = liveLen st.s1 + liveLen st.s2 + st.hub.q.length + pubCount acts := by
  induction acts with
  | nil => intro st; simp [run, pubCount]
  | cons a rest ih =>
    intro st
    have hstep : run st (a :: rest) = run (step st a) rest := rfl
    rw [hstep, ih (step st a)]
    cases a with
    | pub m =>
      simp [step, Hub.publish, pubCount, liveLen]
      omega
    | subscribe1 =>
      cases h1 : st.s1 <;> simp [step, h1, pubCount, liveLen]
    | subscribe2 =>
      cases h2 : st.s2 <;> simp [step, h2, pubCount, liveLen]
    | deliver1 =>
      cases h1 : st.s1 with
      | none =>
        cases hq : st.hub.q <;> simp [step, deliverTo, h1, hq, pubCount, liveLen]
      | some sub =>
        cases hq : st.hub.q with
        | nil => simp [step, deliverTo, h1, hq, pubCount, liveLen]
        | cons x xs =>
          simp [step, deliverTo, h1, hq, pubCount, liveLen]
          omega
    | deliver2 =>
      cases h2 : st.s2 with
      | none =>
        cases hq : st.hub.q <;> simp [step, deliverTo, h2, hq, pubCount, liveLen]
      | some sub =>
        cases hq : st.hub.q with
        | nil => simp [step, deliverTo, h2, hq, pubCount, liveLen]
        | cons x xs =>
          simp [step, deliverTo, h2, hq, pubCount, liveLen]
          omega

/-! ## Claim theorems -/

/-- C1: for every price table, category, base price and variant of a
processed product, the delta set maps the variant id to
round(base + surcharge, 2), where the surcharge is looked up under the
category and the whitespace-stripped variant title and defaults to 0 when
the category or the stripped title is absent from the table. -/
theorem worker_delta_target_price :
    (∀ (prices : PriceTable) (p : Product) (cat : String) (base : ℚ)
        (v : Variant) (m : List (String × ℚ)),
      categoryOf p.tags = some cat →
      findBase p.metafields = BaseResult.found base →
      (p.variants.map Variant.id).Nodup →
      v ∈ p.variants →
      processRun prices [p] [] = Except.ok m →
      dictGet m v.id = some (round2 (base + surchargeLookup prices cat (pyStrip v.title))))
    ∧ (∀ (prices : PriceTable) (cat title : String),
        dictGet prices cat = none → surchargeLookup prices cat title = 0)
    ∧ (∀ (prices : PriceTable) (sub : List (String × ℚ)) (cat title : String),
        dictGet prices cat = some sub → dictGet sub title = none →
        surchargeLookup prices cat title = 0) := by
  refine ⟨?_, ?_, ?_⟩
  · intro prices p cat base v m hcat hbase hnd hv hrun
    have hfold : processRun prices [p] []
        = Except.ok (addVariants prices cat base [] p.variants) := by
      simp [processRun, hcat, hbase]
    rw [hfold] at hrun
    simp only [Except.ok.injEq] at hrun
    subst hrun
    exact addVariants_get_of_mem prices cat base p.variants [] v hnd hv
  · intro prices cat title h
    simp [surchargeLookup, h]
  · intro prices sub cat title h1 h2
    simp [surchargeLookup, h1, h2]

/-- Witness for C1, Scenario A: price table with surcharge 2.5 for
bracelet Small, product with base price "10" and one variant titled
Small; the delta maps the variant id to 12.5. -/
theorem worker_delta_target_price_witness :
    categoryOf scenarioProduct.tags = some "bracelet"
    ∧ findBase scenarioProduct.metafields = BaseResult.found 10
    ∧ (scenarioProduct.variants.map Variant.id).Nodup
    ∧ (⟨"gid-variant-1", "Small"⟩ : Variant) ∈ scenarioProduct.variants
    ∧ processRun scenarioPrices [scenarioProduct] []
        = Except.ok [("gid-variant-1", 25 / 2)]
    ∧ dictGet [("gid-variant-1", (25 : ℚ) / 2)] "gid-variant-1" = some (25 / 2) := by
  have hbase : findBase scenarioProduct.metafields = BaseResult.found 10 := by
    simp [findBase, scenarioProduct, parseFloat, pyStrip, natOfDigits, charDigitVal]
  have hrun : processRun scenarioPrices [scenarioProduct] []
      = Except.ok [("gid-variant-1", 25 / 2)] := by
    simp [processRun, scenarioProduct, scenarioPrices, categoryOf, findBase, parseFloat,
      pyStrip, natOfDigits, charDigitVal, addVariants, targetPrice, surchargeLookup,
      dictGet, dictInsert]
    rw [round2_eq_of_mul _ 1250 (by norm_num)]
    norm_num
  refine ⟨by decide, hbase, by decide, by decide, hrun, ?_⟩
  have h := worker_delta_target_price.1 scenarioPrices scenarioProduct "bracelet" 10
    ⟨"gid-variant-1", "Small"⟩ [("gid-variant-1", 25 / 2)]
    (by decide) hbase (by decide) (by decide) hrun
  have he : round2 (10 + surchargeLookup scenarioPrices "bracelet" (pyStrip "Small"))
      = 25 / 2 := by
    have hs : surchargeLookup scenarioPrices "bracelet" (pyStrip "Small") = 5 / 2 := by
      simp [surchargeLookup, scenarioPrices, dictGet, pyStrip]
    rw [hs, round2_eq_of_mul _ 1250 (by norm_num)]
    norm_num
  rw [he] at h
  exact h

/-- C9: a product tagged both bracelet and collier is assigned category
bracelet; the bracelet tag takes precedence in the tie-break. -/
theorem category_precedence_bracelet :
    ∀ tags : List String, "bracelet" ∈ tags → "collier" ∈ tags →
      categoryOf tags = some "bracelet" := by
  intro tags hb _
  simp [categoryOf, hb]

/-- Witness for C9 at a concrete tag list carrying both category tags. -/
theorem category_precedence_bracelet_witness :
    "bracelet" ∈ ["CHAINE_UPDATE", "bracelet", "collier"]
    ∧ "collier" ∈ ["CHAINE_UPDATE", "bracelet", "collier"]
    ∧ categoryOf ["CHAINE_UPDATE", "bracelet", "collier"] = some "bracelet" :=
  ⟨by decide, by decide, category_precedence_bracelet _ (by decide) (by decide)⟩

/-- C2: over a result sequence whose non-final pages all set hasNextPage
and whose final page clears it, the fetch loop returns exactly the
concatenation of all pages' items in page order, makes exactly one request
per page, keeps requesting while the flag is set, and stops requesting
exactly at the page whose flag is false (pages the server could serve
beyond it are never requested). -/
theorem fetch_pagination_complete :
    ∀ (front : List Page) (lastPage : Page),
      (∀ pg ∈ front, pg.hasNextPage = true) →
      lastPage.hasNextPage = false →
      fetchPages (front ++ [lastPage]) = ((front ++ [lastPage]).map Page.items).flatten
      ∧ requestCount (front ++ [lastPage]) = front.length + 1
      ∧ ∀ extra : List Page,
          fetchPages (front ++ lastPage :: extra) = fetchPages (front ++ [lastPage])
          ∧ requestCount (front ++ lastPage :: extra)
              = requestCount (front ++ [lastPage]) := by
  intro front lastPage hfront hlast
  induction front with
  | nil =>
    refine ⟨by simp [fetchPages, hlast], by simp [requestCount, hlast], ?_⟩
    intro extra
    constructor
    · show fetchPages (lastPage :: extra) = fetchPages [lastPage]
      simp [fetchPages, hlast]
    · show requestCount (lastPage :: extra) = requestCount [lastPage]
      simp [requestCount, hlast]
  | cons pg rest ih =>
    have hpg : pg.hasNextPage = true := hfront pg (by simp)
    have ih' := ih (fun p hp => hfront p (by simp [hp]))
    refine ⟨?_, ?_, ?_⟩
    · show fetchPages (pg :: (rest ++ [lastPage])) = _
      simp only [fetchPages, hpg, if_true, ih'.1]
      simp
    · show requestCount (pg :: (rest ++ [lastPage])) = _
      simp only [requestCount, hpg, if_true, ih'.2.1]
      simp [Nat.add_comm]
    · intro extra
      constructor
      · show fetchPages (pg :: (rest ++ lastPage :: extra))
            = fetchPages (pg :: (rest ++ [lastPage]))
        simp only [fetchPages, hpg, if_true, (ih'.2.2 extra).1]
      · show requestCount (pg :: (rest ++ lastPage :: extra))
            = requestCount (pg :: (rest ++ [lastPage]))
        simp only [requestCount, hpg, if_true, (ih'.2.2 extra).2]

/-- Witness for C2: a two-page sequence; the fetch returns both pages'
products in order with exactly two requests. -/
theorem fetch_pagination_complete_witness :
    (∀ pg ∈ [pageA], pg.hasNextPage = true)
    ∧ pageB.hasNextPage = false
    ∧ fetchPages [pageA, pageB] = [prodA, prodB]
    ∧ requestCount [pageA, pageB] = 2 := by
  refine ⟨by decide, by decide, ?_, ?_⟩
  · have h := (fetch_pagination_complete [pageA] pageB (by decide) (by decide)).1
    exact h.trans (by decide)
  · have h := (fetch_pagination_complete [pageA] pageB (by decide) (by decide)).2.1
    exact h.trans (by decide)

/-- C7: over a status sequence of non-terminal polls followed by a first
terminal status, the poll loop emits exactly one progress event per poll
showing the operation id and current status, stops polling at the first
terminal status (later statuses are never requested), and appends a final
line that on COMPLETED cites the object count. -/
theorem bulk_poll_one_event_per_poll :
    ∀ (opId : String) (pre : List BulkStat) (fin : BulkStat),
      (∀ st ∈ pre, isTerminal st.status = false) →
      isTerminal fin.status = true →
      bulkPollEvents opId (pre ++ [fin])
          = some ((pre ++ [fin]).map (statusLine opId) ++ [finalLine fin])
      ∧ ((pre ++ [fin]).map (statusLine opId)).length = pre.length + 1
      ∧ ∀ extra, bulkPollEvents opId (pre ++ fin :: extra)
          = bulkPollEvents opId (pre ++ [fin]) := by
  intro opId pre fin hpre hfin
  have h := pollLoop_spec opId pre fin hpre hfin
  refine ⟨?_, by simp, ?_⟩
  · simp [bulkPollEvents, h.1]
  · intro extra
    simp [bulkPollEvents, h.2 extra]

/-- Witness for C7, Scenario C: statuses RUNNING, RUNNING, COMPLETED with
objectCount 3 give exactly three status-check events followed by a success
event citing 3. -/
theorem bulk_poll_one_event_per_poll_witness :
    (∀ st ∈ [runningStat, runningStat], isTerminal st.status = false)
    ∧ isTerminal completedStat.status = true
    ∧ bulkPollEvents "gid-op" [runningStat, runningStat, completedStat]
        = some ["Bulk gid-op → RUNNING", "Bulk gid-op → RUNNING",
            "Bulk gid-op → COMPLETED", "✅ Completed — 3 variants."] := by
  refine ⟨by decide, by decide, ?_⟩
  have h := (bulk_poll_one_event_per_poll "gid-op" [runningStat, runningStat]
    completedStat (by decide) (by decide)).1
  exact h.trans (by decide)

/-- C8: the progress-log ring buffer has fixed capacity 200 with oldest
entries evicted first: after more than 200 publishes, a fresh subscriber's
backlog replay is exactly the most recent 200 lines in publish order. -/
theorem ring_buffer_bound :
    ∀ lines : List String, LOG_CAP < lines.length →
      streamBacklog (hubAfter lines) = lines.drop (lines.length - LOG_CAP)
      ∧ (streamBacklog (hubAfter lines)).length = LOG_CAP := by
  intro lines h
  have hb : streamBacklog (hubAfter lines) = lines.drop (lines.length - LOG_CAP) := by
    show (hubAfter lines).buffer = _
    rw [hubAfter, foldl_publish_buffer, foldl_ringPush _ _ _ (by simp [hub0])]
    simp [hub0]
  refine ⟨hb, ?_⟩
  rw [hb, List.length_drop]
  omega

/-- Witness for C8: publishing 201 lines leaves exactly the last 200 in
the backlog replay. -/
theorem ring_buffer_bound_witness :
    LOG_CAP < (List.replicate 201 "x").length
    ∧ streamBacklog (hubAfter (List.replicate 201 "x"))
        = (List.replicate 201 "x").drop ((List.replicate 201 "x").length - LOG_CAP) :=
  ⟨by rw [List.length_replicate]; norm_num [LOG_CAP],
    (ring_buffer_bound _ (by rw [List.length_replicate]; norm_num [LOG_CAP])).1⟩

/-- C10: when at most 200 lines have been published and nothing has
consumed the shared live queue, the first subscriber receives every
previously-published line twice, the backlog replay followed by the queue
contents, before any line published later. -/
theorem first_subscriber_backlog_twice :
    ∀ (lines post : List String), lines.length ≤ LOG_CAP →
      streamOutput (hubAfter lines) post = lines ++ lines ++ post := by
  intro lines post h
  have hb : (hubAfter lines).buffer = lines := by
    rw [hubAfter, foldl_publish_buffer, foldl_ringPush _ _ _ (by simp [hub0])]
    simp only [hub0, List.nil_append, List.length_nil, Nat.zero_add]
    rw [show lines.length - LOG_CAP = 0 by omega, List.drop_zero]
  have hq : (hubAfter lines).q = lines := by
    rw [hubAfter, foldl_publish_q]
    simp [hub0]
  simp [streamOutput, hb, hq]

/-- Witness for C10: after lines a and b are published and one more line c
arrives after the subscribe, the subscriber sees a, b, a, b, c. -/
theorem first_subscriber_backlog_twice_witness :
    (["a", "b"] : List String).length ≤ LOG_CAP
    ∧ streamOutput (hubAfter ["a", "b"]) ["c"] = ["a", "b", "a", "b", "c"] := by
  refine ⟨by decide, ?_⟩
  have h := first_subscriber_backlog_twice ["a", "b"] ["c"] (by decide)
  exact h.trans (by decide)

/-- C3 counterexample: with two subscribers connected, the line published
after both joined is consumed from the single shared queue by subscriber 1;
subscriber 2 receives nothing, its later get() blocks on the now-empty
queue, and the line is gone — so it is false that each subscriber receives
every event published after its own subscribe point. -/
theorem shared_queue_drops_event_for_second_subscriber :
    (run sysInit raceSchedule).s1 = some ⟨[], ["e"]⟩
    ∧ (run sysInit raceSchedule).s2 = some ⟨[], []⟩
    ∧ (run sysInit raceSchedule).hub.q = [] := by decide

/-- C3 amended: the publish call feeds one shared live queue, not a queue
per subscriber, and each get() step moves one line from that queue to a
single subscriber; hence over any schedule the live lines received across
both subscribers plus the lines still queued account for every publish
exactly once — a published event reaches at most one subscriber's live
stream, so one subscriber's consumption removes lines the other never
sees. -/
theorem live_queue_delivers_each_event_once :
    ∀ acts : List Act,
      liveLen (run sysInit acts).s1 + liveLen (run sysInit acts).s2
        + (run sysInit acts).hub.q.length = pubCount acts := by
  intro acts
  have h := run_delivery_invariant acts sysInit
  simpa [sysInit, hub0, liveLen] using h

/-- C4 counterexample: a malformed base_price value ("abc") does not skip
just that product — the run aborts with an error before later products are
processed, while the same later product alone yields a delta. -/
theorem malformed_base_price_crashes_run :
    findBase badProduct.metafields = BaseResult.malformed
    ∧ processRun scenarioPrices [badProduct, scenarioProduct] [] = Except.error ()
    ∧ processRun scenarioPrices [scenarioProduct] []
        = Except.ok [("gid-variant-1", 25 / 2)] := by
  refine ⟨by decide, ?_, ?_⟩
  · simp [processRun, badProduct, categoryOf, findBase, parseFloat, pyStrip,
      natOfDigits, charDigitVal]
  · simp [processRun, scenarioProduct, scenarioPrices, categoryOf, findBase, parseFloat,
      pyStrip, natOfDigits, charDigitVal, addVariants, targetPrice, surchargeLookup,
      dictGet, dictInsert]
    rw [round2_eq_of_mul _ 1250 (by norm_num)]
    norm_num

/-- C4 amended: a missing base_price metafield causes only that product to
be skipped while the run continues over the remaining products; a
malformed base_price value on a categorised product instead raises and
fails the whole run (reported as a single crash event). -/
theorem base_price_error_handling :
    ∀ (prices : PriceTable) (p : Product) (rest : List Product)
      (m : List (String × ℚ)),
      (findBase p.metafields = BaseResult.missing →
        processRun prices (p :: rest) m = processRun prices rest m)
      ∧ (∀ cat, categoryOf p.tags = some cat →
          findBase p.metafields = BaseResult.malformed →
          processRun prices (p :: rest) m = Except.error ()) := by
  intro prices p rest m
  constructor
  · intro hmiss
    cases hcat : categoryOf p.tags <;> simp [processRun, hcat, hmiss]
  · intro cat hcat hmal
    simp [processRun, hcat, hmal]

/-- Witness for C4 amended: a product with no base_price metafield is
skipped and the run continues; the malformed product alone errors the
run. -/
theorem base_price_error_handling_witness :
    findBase noBaseProduct.metafields = BaseResult.missing
    ∧ processRun scenarioPrices [noBaseProduct, scenarioProduct] []
        = processRun scenarioPrices [scenarioProduct] []
    ∧ findBase badProduct.metafields = BaseResult.malformed
    ∧ processRun scenarioPrices [badProduct] [] = Except.error () :=
  ⟨by decide,
    (base_price_error_handling scenarioPrices noBaseProduct [scenarioProduct] []).1
      (by decide),
    by decide,
    (base_price_error_handling scenarioPrices badProduct [] []).2 "bracelet"
      (by decide) (by decide)⟩

/-- C5 counterexample: the upload request injects a Content-Type header
that the signing step did not prescribe — the signed parameters of the
target contain no such entry. -/
theorem upload_injects_content_type_header :
    (buildUploadRequest sampleTarget).headers = [("Content-Type", "text/jsonl")]
    ∧ "Content-Type" ∉ sampleTarget.parameters.map Prod.fst := by decide

/-- C5 amended: the signed parameters are sent exactly as given (as the
request parameters, assuming distinct parameter names), but the upload
request additionally carries the fixed header Content-Type text/jsonl
beyond what the signing step prescribes. -/
theorem upload_sends_params_with_extra_header :
    ∀ tgt : StagedTarget, (tgt.parameters.map Prod.fst).Nodup →
      (buildUploadRequest tgt).params = tgt.parameters
      ∧ (buildUploadRequest tgt).headers = [("Content-Type", "text/jsonl")] := by
  intro tgt hnd
  constructor
  · show tgt.parameters.foldl (fun acc pr => dictInsert acc pr.1 pr.2) [] = tgt.parameters
    rw [foldl_dictInsert_eq_append tgt.parameters [] hnd (by simp)]
    simp
  · rfl

/-- Witness for C5 amended at the sample target. -/
theorem upload_sends_params_with_extra_header_witness :
    (sampleTarget.parameters.map Prod.fst).Nodup
    ∧ (buildUploadRequest sampleTarget).params = sampleTarget.parameters
    ∧ (buildUploadRequest sampleTarget).headers = [("Content-Type", "text/jsonl")] :=
  ⟨by decide, (upload_sends_params_with_extra_header sampleTarget (by decide)).1,
    (upload_sends_params_with_extra_header sampleTarget (by decide)).2⟩

/-- C6 counterexample: raise_for_status raises only for statuses in
[400, 600), so a final 303 response (not auto-followed when it lacks a
Location header) with a JSON body and empty error list makes gql return
the data payload instead of raising a transport error — contradicting the
claim that every non-2xx response raises. -/
theorem gql_returns_data_on_303 :
    gqlResult (⟨303, [], "payload"⟩ : GqlResponse String) = Except.ok "payload"
    ∧ ¬ (200 ≤ (303 : ℕ) ∧ (303 : ℕ) < 300) := ⟨rfl, by decide⟩

/-- C6 amended: a 4xx or 5xx response raises a transport error carrying
the status; otherwise a non-empty error list in the body raises a protocol
error carrying that list; otherwise the call returns exactly the data
payload. -/
theorem gql_error_handling :
    ∀ {α : Type} (r : GqlResponse α),
      (400 ≤ r.status → r.status < 600 →
        gqlResult r = Except.error (GqlError.transport r.status))
      ∧ (¬ (400 ≤ r.status ∧ r.status < 600) → r.errors ≠ [] →
        gqlResult r = Except.error (GqlError.protocol r.errors))
      ∧ (¬ (400 ≤ r.status ∧ r.status < 600) → r.errors = [] →
        gqlResult r = Except.ok r.payload) := by
  intro α r
  refine ⟨?_, ?_, ?_⟩
  · intro h1 h2
    simp only [gqlResult]
    rw [if_pos ⟨h1, h2⟩]
  · intro h1 h2
    simp only [gqlResult]
    rw [if_neg h1, if_pos h2]
  · intro h1 h2
    simp only [gqlResult]
    rw [if_neg h1, if_neg (by simp [h2])]

/-- Witness for C6 amended: a 500 response, a 200 response with an error
list, and a 200 response with none. -/
theorem gql_error_handling_witness :
    gqlResult (⟨500, [], "d"⟩ : GqlResponse String)
        = Except.error (GqlError.transport 500)
    ∧ gqlResult (⟨200, ["boom"], "d"⟩ : GqlResponse String)
        = Except.error (GqlError.protocol ["boom"])
    ∧ gqlResult (⟨200, [], "d"⟩ : GqlResponse String) = Except.ok "d" :=
  ⟨(gql_error_handling _).1 (by decide) (by decide),
    (gql_error_handling _).2.1 (by decide) (by decide),
    (gql_error_handling _).2.2 (by decide) (by decide)⟩

end App
